import Mathlib

/-!
Shallow embedding of the incident-response bot's core
(`src/services/incidentManager.ts`, `src/services/metricsCollector.ts`,
`src/app.ts`, `src/handlers/slackHandlers.ts`).

Dates are modelled as natural numbers (milliseconds since the epoch).
Each mutating operation of `IncidentManager` receives the identifiers and
the clock reading that the TypeScript code obtains from `generateEventId`
/ `generateIncidentId` / `new Date()` as explicit parameters; the in-place
mutation of the incident stored in the `Map` is modelled by returning the
updated store.  The JavaScript `Map` is modelled as an association list in
insertion order (`Map.set` on an existing key keeps its position, on a new
key appends at the end), matching JS iteration order of `Map.values()`.
-/

namespace IncidentBot

/-- `severity: 'P0' | 'P1' | 'P2' | 'P3'` -/
inductive Severity where
  | P0 | P1 | P2 | P3
  deriving DecidableEq, Repr

/-- `status: 'open' | 'investigating' | 'resolved' | 'closed'` -/
inductive Status where
  | «open» | investigating | resolved | «closed»
  deriving DecidableEq, Repr

/-- `source: 'manual' | 'webhook' | 'monitoring'` -/
inductive Source where
  | manual | webhook | monitoring
  deriving DecidableEq, Repr

/-- `type: 'created' | 'assigned' | 'status_changed' | 'comment' | 'resolved' | 'closed'` -/
inductive EventType where
  | created | assigned | status_changed | comment | resolved | «closed»
  deriving DecidableEq, Repr

/-- The structured `metadata` object literals attached to events by
`createIncident`, `assignIncident` and `updateIncidentStatus`. -/
inductive EventMetadata where
  | created (severity : Severity)
  | assigned (oldAssignee : Option String) (newAssignee : String)
  | statusChanged (oldStatus newStatus : Status)
  deriving DecidableEq, Repr

/-- `interface IncidentEvent` -/
structure IncidentEvent where
  id : String
  incidentId : String
  type : EventType
  message : String
  userId : Option String
  timestamp : Nat
  metadata : Option EventMetadata
  deriving DecidableEq, Repr

/-- `interface Incident` (the opaque `metadata?: any` payload is modelled
as an optional string). -/
structure Incident where
  id : String
  title : String
  description : Option String
  severity : Severity
  status : Status
  assignee : Option String
  channelId : Option String
  createdAt : Nat
  updatedAt : Nat
  resolvedAt : Option Nat
  closedAt : Option Nat
  source : Source
  timeline : List IncidentEvent
  tags : List String
  metadata : Option String
  deriving DecidableEq, Repr

/-- `interface CreateIncidentRequest` -/
structure CreateIncidentRequest where
  title : String
  description : Option String
  severity : Severity
  assignee : Option String
  source : Option Source
  tags : Option (List String)
  metadata : Option String
  deriving DecidableEq, Repr

/-- The `incidents: Map<string, Incident>` store owned by `IncidentManager`
(the `incidentEvents` and `onCallSchedules` maps play no role in the
claims under study; `incidentEvents` is in fact never written). -/
structure ManagerState where
  incidents : List (String × Incident)
  deriving DecidableEq, Repr

/-- JS `Map.get`. -/
def mapGet {α : Type} (m : List (String × α)) (k : String) : Option α :=
  (m.find? (fun p => p.1 = k)).map (·.2)

/-- JS `Map.set`: overwrite in place when the key exists, append otherwise. -/
def mapSet {α : Type} (m : List (String × α)) (k : String) (v : α) :
    List (String × α) :=
  if m.any (fun p => p.1 = k) then
    m.map (fun p => if p.1 = k then (k, v) else p)
  else
    m ++ [(k, v)]

def emptyState : ManagerState := ⟨[]⟩

/-- The string form of a status, as it appears in template literals. -/
def Status.str : Status → String
  | .«open» => "open"
  | .investigating => "investigating"
  | .resolved => "resolved"
  | .«closed» => "closed"

/-- `IncidentManager.createIncident`.  The id produced by
`generateIncidentId`, the event id produced by `generateEventId` and the
single `new Date()` reading `now` are explicit parameters.  No argument is
validated; the constructed incident is unconditionally stored. -/
def createIncident (s : ManagerState) (request : CreateIncidentRequest)
    (id evId : String) (now : Nat) : Incident × ManagerState :=
  let incident0 : Incident :=
    { id := id
      title := request.title
      description := request.description
      severity := request.severity
      status := .«open»
      assignee := request.assignee
      channelId := none
      createdAt := now
      updatedAt := now
      resolvedAt := none
      closedAt := none
      source := request.source.getD .manual
      timeline := []
      tags := request.tags.getD []
      metadata := request.metadata }
  let creationEvent : IncidentEvent :=
    { id := evId
      incidentId := id
      type := .created
      message := "Incident created: " ++ incident0.title
      userId := none
      timestamp := now
      metadata := some (.created incident0.severity) }
  let incident : Incident :=
    { incident0 with timeline := incident0.timeline ++ [creationEvent] }
  (incident, ⟨mapSet s.incidents id incident⟩)

/-- `IncidentManager.getIncident`. -/
def getIncident (s : ManagerState) (id : String) : Option Incident :=
  mapGet s.incidents id

/-- `IncidentManager.getAllIncidents` (`Array.from(this.incidents.values())`,
i.e. the stored incidents in insertion order). -/
def getAllIncidents (s : ManagerState) : List Incident :=
  s.incidents.map (·.2)

/-- `IncidentManager.getOpenIncidents`. -/
def getOpenIncidents (s : ManagerState) : List Incident :=
  (getAllIncidents s).filter (fun incident =>
    incident.status = .«open» || incident.status = .investigating)

/-- `IncidentManager.assignIncident`.  Returns the boolean result together
with the store after the in-place mutation. -/
def assignIncident (s : ManagerState) (incidentId assignee : String)
    (evId : String) (now : Nat) : Bool × ManagerState :=
  match mapGet s.incidents incidentId with
  | none => (false, s)
  | some incident =>
    let oldAssignee := incident.assignee
    let event : IncidentEvent :=
      { id := evId
        incidentId := incidentId
        type := .assigned
        message :=
          match oldAssignee with
          | some old => "Incident reassigned from " ++ old ++ " to " ++ assignee
          | none => "Incident assigned to " ++ assignee
        userId := none
        timestamp := now
        metadata := some (.assigned oldAssignee assignee) }
    let incident' : Incident :=
      { incident with
          assignee := some assignee
          updatedAt := now
          timeline := incident.timeline ++ [event] }
    (true, ⟨mapSet s.incidents incidentId incident'⟩)

/-- `IncidentManager.updateIncidentStatus`.  Note that the source sets
`resolvedAt = new Date()` whenever the requested status is `resolved`
(and likewise `closedAt` for `closed`) with no check of a previous value. -/
def updateIncidentStatus (s : ManagerState) (incidentId : String)
    (status : Status) (userId : Option String) (evId : String) (now : Nat) :
    Bool × ManagerState :=
  match mapGet s.incidents incidentId with
  | none => (false, s)
  | some incident =>
    let oldStatus := incident.status
    let resolvedAt' :=
      if status = .resolved then some now else incident.resolvedAt
    let closedAt' :=
      if status = .resolved then incident.closedAt
      else if status = .«closed» then some now else incident.closedAt
    let event : IncidentEvent :=
      { id := evId
        incidentId := incidentId
        type := .status_changed
        message := "Status changed from " ++ oldStatus.str ++ " to " ++ status.str
        userId := userId
        timestamp := now
        metadata := some (.statusChanged oldStatus status) }
    let incident' : Incident :=
      { incident with
          status := status
          updatedAt := now
          resolvedAt := resolvedAt'
          closedAt := closedAt'
          timeline := incident.timeline ++ [event] }
    (true, ⟨mapSet s.incidents incidentId incident'⟩)

/-- `IncidentManager.addIncidentComment`. -/
def addIncidentComment (s : ManagerState) (incidentId message userId : String)
    (evId : String) (now : Nat) : Bool × ManagerState :=
  match mapGet s.incidents incidentId with
  | none => (false, s)
  | some incident =>
    let event : IncidentEvent :=
      { id := evId
        incidentId := incidentId
        type := .comment
        message := message
        userId := some userId
        timestamp := now
        metadata := none }
    let incident' : Incident :=
      { incident with
          timeline := incident.timeline ++ [event]
          updatedAt := now }
    (true, ⟨mapSet s.incidents incidentId incident'⟩)

/-! ### Metrics (`IncidentManager.getIncidentMetrics`, `MetricsCollector`) -/

/-- The `reduce` in `getIncidentMetrics` / `generateDailyMetrics`: sum of
`resolvedAt.getTime() - createdAt.getTime()` in milliseconds over the
incidents whose `resolvedAt` is set. -/
def resolutionSum (l : List Incident) : Int :=
  l.foldl
    (fun sum incident =>
      match incident.resolvedAt with
      | some r => sum + ((r : Int) - (incident.createdAt : Int))
      | none => sum)
    0

/-- The record returned by `IncidentManager.getIncidentMetrics`. -/
structure IncidentMetrics where
  total : Nat
  «open» : Nat
  investigating : Nat
  resolved : Nat
  «closed» : Nat
  bySeverityP0 : Nat
  bySeverityP1 : Nat
  bySeverityP2 : Nat
  bySeverityP3 : Nat
  avgResolutionTime : ℚ
  deriving DecidableEq, Repr

/-- `IncidentManager.getIncidentMetrics`. -/
def getIncidentMetrics (s : ManagerState) : IncidentMetrics :=
  let incidents := getAllIncidents s
  let resolvedList := incidents.filter (fun i => i.resolvedAt.isSome)
  let avgResolutionTime : ℚ :=
    if resolvedList.length > 0 then
      ((resolutionSum resolvedList : ℚ) / (resolvedList.length : ℚ)) / (1000 * 60)
    else 0
  { total := incidents.length
    «open» := (incidents.filter (fun i => i.status = .«open»)).length
    investigating := (incidents.filter (fun i => i.status = .investigating)).length
    resolved := (incidents.filter (fun i => i.status = .resolved)).length
    «closed» := (incidents.filter (fun i => i.status = .«closed»)).length
    bySeverityP0 := (incidents.filter (fun i => i.severity = .P0)).length
    bySeverityP1 := (incidents.filter (fun i => i.severity = .P1)).length
    bySeverityP2 := (incidents.filter (fun i => i.severity = .P2)).length
    bySeverityP3 := (incidents.filter (fun i => i.severity = .P3)).length
    avgResolutionTime := avgResolutionTime }

/-- The gauge values written by
`MetricsCollector.updateIncidentStatusMetrics`. -/
structure StatusGauges where
  statusOpen : Nat
  statusInvestigating : Nat
  statusResolved : Nat
  statusClosed : Nat
  severityP0 : Nat
  severityP1 : Nat
  severityP2 : Nat
  severityP3 : Nat
  activeTotal : Nat
  deriving DecidableEq, Repr

/-- `MetricsCollector.updateIncidentStatusMetrics`: copies the snapshot
counts of `getIncidentMetrics` into the Prometheus gauges. -/
def updateIncidentStatusMetrics (s : ManagerState) : StatusGauges :=
  let metrics := getIncidentMetrics s
  { statusOpen := metrics.«open»
    statusInvestigating := metrics.investigating
    statusResolved := metrics.resolved
    statusClosed := metrics.«closed»
    severityP0 := metrics.bySeverityP0
    severityP1 := metrics.bySeverityP1
    severityP2 := metrics.bySeverityP2
    severityP3 := metrics.bySeverityP3
    activeTotal := metrics.«open» + metrics.investigating }

/-- JavaScript `Math.round`: rounds half-up, i.e. `⌊x + 1/2⌋`. -/
def jsRound (q : ℚ) : Int := ⌊q + 1 / 2⌋

/-- The record returned by `MetricsCollector.generateDailyMetrics`. -/
structure DailyMetrics where
  incidentsCreatedToday : Nat
  incidentsResolvedToday : Nat
  avgResolutionTimeToday : Int
  criticalIncidentsToday : Nat
  activeIncidents : Nat
  deriving DecidableEq, Repr

/-- `MetricsCollector.generateDailyMetrics`.  `today` is the millisecond
timestamp of local midnight (`new Date()` with `setHours(0,0,0,0)`),
passed in explicitly.  In the `resolvedTodayWithTimes` filter the source's
third conjunct `&& incident.createdAt` tests a `Date` object, which is
always truthy, so it imposes no condition. -/
def generateDailyMetrics (s : ManagerState) (today : Nat) : DailyMetrics :=
  let allIncidents := getAllIncidents s
  let incidentsCreatedToday :=
    (allIncidents.filter (fun i => decide (today ≤ i.createdAt))).length
  let incidentsResolvedToday :=
    (allIncidents.filter (fun i => i.resolvedAt.any (fun r => decide (today ≤ r)))).length
  let criticalIncidentsToday :=
    (allIncidents.filter (fun i =>
      decide (today ≤ i.createdAt) &&
        (i.severity = .P0 || i.severity = .P1))).length
  let resolvedTodayWithTimes :=
    allIncidents.filter (fun i => i.resolvedAt.any (fun r => decide (today ≤ r)))
  let avgResolutionTimeToday : ℚ :=
    if resolvedTodayWithTimes.length > 0 then
      ((resolutionSum resolvedTodayWithTimes : ℚ) /
        (resolvedTodayWithTimes.length : ℚ)) / (1000 * 60)
    else 0
  { incidentsCreatedToday := incidentsCreatedToday
    incidentsResolvedToday := incidentsResolvedToday
    avgResolutionTimeToday := jsRound avgResolutionTimeToday
    criticalIncidentsToday := criticalIncidentsToday
    activeIncidents := (getOpenIncidents s).length }

/-! ### Webhook severity normalization (`IncidentResponseBot.mapAlertSeverity`) -/

/-- `String.prototype.toLowerCase` on ASCII data: lower-case every
character. -/
def jsToLower (s : String) : String := ⟨s.data.map Char.toLower⟩

/-- `String.prototype.toUpperCase` on ASCII data. -/
def jsToUpper (s : String) : String := ⟨s.data.map Char.toUpper⟩

/-- `IncidentResponseBot.mapAlertSeverity` (src/app.ts).  The parameter is
optional because the call site passes `alert.severity || alert.priority`,
which may be `undefined`; the body's `(alertSeverity || '')` is modelled
by `getD ""` (the JS `||` also sends the empty string to `""`). -/
def mapAlertSeverity (alertSeverity : Option String) : Severity :=
  let severity := jsToLower (alertSeverity.getD "")
  if ["critical", "p0", "sev0", "high"].contains severity then .P0
  else if ["high", "p1", "sev1", "medium"].contains severity then .P1
  else if ["medium", "p2", "sev2", "low"].contains severity then .P2
  else .P3

/-! ### Slack create-command validation (`SlackHandlers.handleCreateIncident`) -/

/-- The argument-validation gate at the start of
`SlackHandlers.handleCreateIncident` (src/handlers/slackHandlers.ts):
`none` models the early `respond`-and-return paths (fewer than two
arguments, or an unrecognized severity token), on which
`createIncident` is never called and the store is untouched; `some`
returns the parsed title and severity that are passed on to
`createIncident`. -/
def handleCreateIncidentParse (args : List String) : Option (String × Severity) :=
  if args.length < 2 then none
  else
    let title := (String.intercalate " " args.dropLast).replace "\"" ""
    let severity := jsToUpper (args.getLast?.getD "")
    if severity = "P0" then some (title, .P0)
    else if severity = "P1" then some (title, .P1)
    else if severity = "P2" then some (title, .P2)
    else if severity = "P3" then some (title, .P3)
    else none

/-! ### Runtime (type-erased) view of `createIncident`, for the
validation question: at the JavaScript level nothing stops a caller from
passing a request whose `title` is `undefined` or whose `severity` is an
arbitrary token, and `createIncident`'s body performs no check. -/

/-- `IncidentEvent` at the erased level: the creation event's
`metadata = { severity }` holds the raw severity token. -/
structure RawIncidentEvent where
  id : String
  incidentId : String
  type : EventType
  message : String
  userId : Option String
  timestamp : Nat
  severityMetadata : Option String
  deriving DecidableEq, Repr

/-- `Incident` at the erased level: `title` may be absent, `severity` is
an arbitrary token. -/
structure RawIncident where
  id : String
  title : Option String
  description : Option String
  severity : String
  status : Status
  assignee : Option String
  channelId : Option String
  createdAt : Nat
  updatedAt : Nat
  resolvedAt : Option Nat
  closedAt : Option Nat
  source : Source
  timeline : List RawIncidentEvent
  tags : List String
  metadata : Option String
  deriving DecidableEq, Repr

/-- `CreateIncidentRequest` at the erased level. -/
structure RawCreateRequest where
  title : Option String
  description : Option String
  severity : String
  assignee : Option String
  source : Option Source
  tags : Option (List String)
  metadata : Option String
  deriving DecidableEq, Repr

/-- `IncidentManager.createIncident` executed on a type-erased request:
the body is identical to `createIncident` (no validation of any field; a
missing title renders as the string `"undefined"` in the template
literal), so an incident is stored for every request whatsoever. -/
def createIncidentRuntime (store : List (String × RawIncident))
    (request : RawCreateRequest) (id evId : String) (now : Nat) :
    RawIncident × List (String × RawIncident) :=
  let incident0 : RawIncident :=
    { id := id
      title := request.title
      description := request.description
      severity := request.severity
      status := .«open»
      assignee := request.assignee
      channelId := none
      createdAt := now
      updatedAt := now
      resolvedAt := none
      closedAt := none
      source := request.source.getD .manual
      timeline := []
      tags := request.tags.getD []
      metadata := request.metadata }
  let creationEvent : RawIncidentEvent :=
    { id := evId
      incidentId := id
      type := .created
      message := "Incident created: " ++ (incident0.title.getD "undefined")
      userId := none
      timestamp := now
      severityMetadata := some incident0.severity }
  let incident : RawIncident :=
    { incident0 with timeline := incident0.timeline ++ [creationEvent] }
  (incident, mapSet store id incident)

/-! ### Operation sequences

A client-visible mutation of the store is one of the four public mutating
methods.  Each carries the identifiers and clock reading the method
obtains internally. -/

inductive Op where
  | create (request : CreateIncidentRequest) (id evId : String) (now : Nat)
  | assign (incidentId assignee evId : String) (now : Nat)
  | update (incidentId : String) (status : Status) (userId : Option String)
      (evId : String) (now : Nat)
  | comment (incidentId message userId evId : String) (now : Nat)
  deriving DecidableEq, Repr

def applyOp (s : ManagerState) : Op → ManagerState
  | .create request id evId now => (createIncident s request id evId now).2
  | .assign incidentId assignee evId now =>
      (assignIncident s incidentId assignee evId now).2
  | .update incidentId status userId evId now =>
      (updateIncidentStatus s incidentId status userId evId now).2
  | .comment incidentId message userId evId now =>
      (addIncidentComment s incidentId message userId evId now).2

def runOps (s : ManagerState) (ops : List Op) : ManagerState :=
  ops.foldl applyOp s

/-- The clock reading of an operation. -/
def Op.now : Op → Nat
  | .create _ _ _ n => n
  | .assign _ _ _ n => n
  | .update _ _ _ _ n => n
  | .comment _ _ _ _ n => n

/-- The incident id an operation targets. -/
def Op.target : Op → String
  | .create _ id _ _ => id
  | .assign i _ _ _ => i
  | .update i _ _ _ _ => i
  | .comment i _ _ _ _ => i

/-- Whether the operation, applied in state `s`, is a successful mutation
call: creation always succeeds; the other three succeed exactly when the
incident id is present. -/
def opSucceeds (s : ManagerState) : Op → Bool
  | .create _ _ _ _ => true
  | .assign i _ _ _ => (mapGet s.incidents i).isSome
  | .update i _ _ _ _ => (mapGet s.incidents i).isSome
  | .comment i _ _ _ _ => (mapGet s.incidents i).isSome

/-- Timeline length of the incident stored under `id` (0 when absent). -/
def timelineLen (s : ManagerState) (id : String) : Nat :=
  match getIncident s id with
  | some inc => inc.timeline.length
  | none => 0

/-- The number of successful mutation calls applied to incident `id`
along an operation sequence, creation counting as one (and, should an id
ever be reused by a later creation, restarting the count with that
creation, since `Map.set` replaces the stored incident). -/
def successfulMutations (s : ManagerState) (acc : Nat) (id : String) :
    List Op → Nat
  | [] => acc
  | op :: ops =>
      let acc' :=
        if op.target = id ∧ opSucceeds s op then
          match op with
          | .create _ _ _ _ => 1
          | _ => acc + 1
        else acc
      successfulMutations (applyOp s op) acc' id ops

/-- The timestamps of an incident's timeline are non-decreasing in
timeline order. -/
def timestampsSorted (inc : Incident) : Prop :=
  (inc.timeline.map (·.timestamp)).Chain' (· ≤ ·)

/-- Every timeline timestamp in the store is at most `n`. -/
def timesBounded (s : ManagerState) (n : Nat) : Prop :=
  ∀ p ∈ s.incidents, ∀ ev ∈ p.2.timeline, ev.timestamp ≤ n

/-- Every incident in the store has a chronologically sorted timeline. -/
def sortedState (s : ManagerState) : Prop :=
  ∀ p ∈ s.incidents, timestampsSorted p.2

/-- The clock readings of an operation sequence are non-decreasing and
bounded below by `n` (the wall clock never goes backwards across the
sequence). -/
def nowsAdmissible : Nat → List Op → Prop
  | _, [] => True
  | n, op :: ops => n ≤ op.now ∧ nowsAdmissible op.now ops

/-- An event that records a status change into `resolved` (the audit
record appended by `updateIncidentStatus(id, 'resolved')`). -/
def evSetsResolved (ev : IncidentEvent) : Bool :=
  ev.type = .status_changed &&
    match ev.metadata with
    | some (.statusChanged _ newStatus) => newStatus = .resolved
    | _ => false

/-- An event that records a status change into `closed`. -/
def evSetsClosed (ev : IncidentEvent) : Bool :=
  ev.type = .status_changed &&
    match ev.metadata with
    | some (.statusChanged _ newStatus) => newStatus = .«closed»
    | _ => false

/-- The incident has ever had its status set to `resolved`, as witnessed
by its append-only audit timeline. -/
def everResolved (inc : Incident) : Bool :=
  inc.timeline.any evSetsResolved

/-- The incident has ever had its status set to `closed`. -/
def everClosed (inc : Incident) : Bool :=
  inc.timeline.any evSetsClosed

/-- `resolvedAt`/`closedAt` are set exactly for the incidents whose
timeline records a transition to `resolved`/`closed`. -/
def timestampsFaithful (s : ManagerState) : Prop :=
  ∀ p ∈ s.incidents,
    p.2.resolvedAt.isSome = everResolved p.2 ∧
    p.2.closedAt.isSome = everClosed p.2

/-! ### Lemmas about the JS `Map` model -/

theorem find?_map_replace {α : Type} (m : List (String × α)) (k : String)
    (v : α) (hany : m.any (fun p => p.1 = k) = true) :
    (m.map (fun p => if p.1 = k then (k, v) else p)).find?
      (fun p => p.1 = k) = some (k, v) := by
  induction m with
  | nil => simp at hany
  | cons p m ih =>
    by_cases hp : p.1 = k
    · simp only [List.map_cons, if_pos hp]
      exact List.find?_cons_of_pos _ (by simp)
    · simp only [List.any_cons, Bool.or_eq_true, decide_eq_true_eq] at hany
      rcases hany with h | h
      · exact absurd h hp
      · simp only [List.map_cons, if_neg hp]
        rw [List.find?_cons_of_neg _ (by simpa using hp)]
        exact ih (by simpa using h)

theorem mapGet_mapSet_self {α : Type} (m : List (String × α)) (k : String)
    (v : α) : mapGet (mapSet m k v) k = some v := by
  unfold mapSet
  split
  · rename_i hany
    unfold mapGet
    rw [find?_map_replace m k v hany]
    rfl
  · rename_i hany
    unfold mapGet
    rw [List.find?_append]
    have hnone : m.find? (fun p => p.1 = k) = none := by
      rw [List.find?_eq_none]
      intro x hx
      simp only [Bool.not_eq_true, decide_eq_false_iff_not]
      intro hxk
      exact hany (by simp only [List.any_eq_true]; exact ⟨x, hx, by simp [hxk]⟩)
    rw [hnone]
    simp

theorem mapGet_mapSet_ne {α : Type} (m : List (String × α)) (k k' : String)
    (v : α) (h : k' ≠ k) : mapGet (mapSet m k v) k' = mapGet m k' := by
  have hfind : ∀ (l : List (String × α)),
      (l.map (fun p => if p.1 = k then (k, v) else p)).find?
        (fun p => p.1 = k') = l.find? (fun p => p.1 = k') := by
    intro l
    induction l with
    | nil => rfl
    | cons p l ih =>
      by_cases hp : p.1 = k
      · have h1 : ¬ ((k, v).1 = k') := fun hc => h hc.symm
        have h2 : ¬ (p.1 = k') := fun hc => h (hp ▸ hc).symm
        simp only [List.map_cons, if_pos hp]
        rw [List.find?_cons_of_neg _ (by simpa using h1),
          List.find?_cons_of_neg _ (by simpa using h2)]
        exact ih
      · simp only [List.map_cons, if_neg hp]
        by_cases hpk' : p.1 = k'
        · rw [List.find?_cons_of_pos _ (by simpa using hpk'),
            List.find?_cons_of_pos _ (by simpa using hpk')]
        · rw [List.find?_cons_of_neg _ (by simpa using hpk'),
            List.find?_cons_of_neg _ (by simpa using hpk')]
          exact ih
  unfold mapSet
  split
  · unfold mapGet
    rw [hfind m]
  · unfold mapGet
    rw [List.find?_append]
    have : List.find? (fun p => p.1 = k') [(k, v)] = none := by
      have hkk' : k ≠ k' := Ne.symm h
      simp [List.find?, hkk']
    rw [this]
    simp

theorem mem_mapSet {α : Type} {m : List (String × α)} {k : String} {v : α}
    {p : String × α} (hp : p ∈ mapSet m k v) : p = (k, v) ∨ p ∈ m := by
  unfold mapSet at hp
  split at hp
  · rcases List.mem_map.mp hp with ⟨q, hq, hfq⟩
    by_cases hqk : q.1 = k
    · left; rw [if_pos hqk] at hfq; exact hfq.symm
    · right; rw [if_neg hqk] at hfq; exact hfq ▸ hq
  · rcases List.mem_append.mp hp with h | h
    · exact Or.inr h
    · left; simpa using h

theorem mapGet_mem {α : Type} {m : List (String × α)} {k : String} {v : α}
    (h : mapGet m k = some v) : ∃ p ∈ m, p.1 = k ∧ p.2 = v := by
  unfold mapGet at h
  rcases Option.map_eq_some'.mp h with ⟨p, hfind, hv⟩
  refine ⟨p, List.mem_of_find?_eq_some hfind, ?_, hv⟩
  have := List.find?_some hfind
  simpa using this

/-! ### Partition lemmas for the metrics counts -/

theorem status_filter_partition (l : List Incident) :
    (l.filter (fun i => i.status = .«open»)).length +
      (l.filter (fun i => i.status = .investigating)).length +
      (l.filter (fun i => i.status = .resolved)).length +
      (l.filter (fun i => i.status = .«closed»)).length = l.length := by
  induction l with
  | nil => rfl
  | cons i l ih =>
    cases hs : i.status <;>
      simp only [List.filter_cons, hs] <;> simp <;> omega

theorem severity_filter_partition (l : List Incident) :
    (l.filter (fun i => i.severity = .P0)).length +
      (l.filter (fun i => i.severity = .P1)).length +
      (l.filter (fun i => i.severity = .P2)).length +
      (l.filter (fun i => i.severity = .P3)).length = l.length := by
  induction l with
  | nil => rfl
  | cons i l ih =>
    cases hs : i.severity <;>
      simp only [List.filter_cons, hs] <;> simp <;> omega

/-! ### Claim theorems -/

/-- C3: for every creation request, the incident returned by
`createIncident` has status `open`, a timeline consisting of exactly one
event of type `created`, and `createdAt = updatedAt`; and immediately
after the call, `getIncident` on the new id returns that incident.
(At the typed interface every `CreateIncidentRequest` is a valid request:
its `title` is present and its `severity` is one of the four levels.) -/
theorem createIncident_open_created_visible (s : ManagerState)
    (request : CreateIncidentRequest) (id evId : String) (now : Nat) :
    (createIncident s request id evId now).1.status = .«open» ∧
    (createIncident s request id evId now).1.timeline.map (·.type) = [.created] ∧
    (createIncident s request id evId now).1.createdAt =
      (createIncident s request id evId now).1.updatedAt ∧
    getIncident (createIncident s request id evId now).2
        (createIncident s request id evId now).1.id =
      some (createIncident s request id evId now).1 := by
  refine ⟨rfl, rfl, rfl, ?_⟩
  exact mapGet_mapSet_self s.incidents id _

/-- C5: on an id that is not in the store, `assignIncident`,
`updateIncidentStatus` and `addIncidentComment` all return the failure
result `false` and leave the store exactly as it was. -/
theorem missingId_ops_noop (s : ManagerState)
    (id assignee message userId evId : String) (status : Status)
    (actor : Option String) (now : Nat) (h : getIncident s id = none) :
    assignIncident s id assignee evId now = (false, s) ∧
    updateIncidentStatus s id status actor evId now = (false, s) ∧
    addIncidentComment s id message userId evId now = (false, s) := by
  unfold getIncident at h
  refine ⟨?_, ?_, ?_⟩ <;>
    simp [assignIncident, updateIncidentStatus, addIncidentComment, h]

theorem missingId_ops_noop_witness :
    assignIncident emptyState "missing-id" "U1" "EVT-1" 5 = (false, emptyState) ∧
    updateIncidentStatus emptyState "missing-id" .resolved none "EVT-1" 5 =
      (false, emptyState) ∧
    addIncidentComment emptyState "missing-id" "hello" "U1" "EVT-1" 5 =
      (false, emptyState) :=
  missingId_ops_noop emptyState "missing-id" "U1" "hello" "U1" "EVT-1"
    .resolved none 5 rfl

/-- C6: `getOpenIncidents` returns exactly the subsequence of
`getAllIncidents` consisting of the incidents whose status is `open` or
`investigating`, in the same order. -/
theorem getOpenIncidents_subseq (s : ManagerState) :
    (getOpenIncidents s).Sublist (getAllIncidents s) ∧
    ∀ incident, incident ∈ getOpenIncidents s ↔
      incident ∈ getAllIncidents s ∧
        (incident.status = .«open» ∨ incident.status = .investigating) := by
  constructor
  · exact List.filter_sublist _
  · intro incident
    simp [getOpenIncidents, List.mem_filter]

/-- C7: in the aggregate metrics snapshot the four per-status counts sum
to the total incident count, the four per-severity counts sum to the
total, and the same holds for the Prometheus gauges written by
`updateIncidentStatusMetrics`. -/
theorem metrics_buckets_sum (s : ManagerState) :
    ((getIncidentMetrics s).«open» + (getIncidentMetrics s).investigating +
        (getIncidentMetrics s).resolved + (getIncidentMetrics s).«closed» =
      (getIncidentMetrics s).total) ∧
    ((getIncidentMetrics s).bySeverityP0 + (getIncidentMetrics s).bySeverityP1 +
        (getIncidentMetrics s).bySeverityP2 + (getIncidentMetrics s).bySeverityP3 =
      (getIncidentMetrics s).total) ∧
    ((updateIncidentStatusMetrics s).statusOpen +
        (updateIncidentStatusMetrics s).statusInvestigating +
        (updateIncidentStatusMetrics s).statusResolved +
        (updateIncidentStatusMetrics s).statusClosed =
      (getIncidentMetrics s).total) ∧
    ((updateIncidentStatusMetrics s).severityP0 +
        (updateIncidentStatusMetrics s).severityP1 +
        (updateIncidentStatusMetrics s).severityP2 +
        (updateIncidentStatusMetrics s).severityP3 =
      (getIncidentMetrics s).total) := by
  refine ⟨?_, ?_, ?_, ?_⟩ <;>
    simpa [getIncidentMetrics, updateIncidentStatusMetrics] using
      (by first
        | exact status_filter_partition (getAllIncidents s)
        | exact severity_filter_partition (getAllIncidents s))

/-- C9: the webhook severity normalization is case-insensitive (it
depends only on the lowercased token) and applies the listed rules in
order with first match winning: {critical, p0, sev0, high} → P0, then
{high, p1, sev1, medium} → P1, then {medium, p2, sev2, low} → P2, and
every other string — including the empty or absent one — maps to P3. -/
theorem mapAlertSeverity_rules :
    (∀ a b : Option String,
        jsToLower (a.getD "") = jsToLower (b.getD "") →
        mapAlertSeverity a = mapAlertSeverity b) ∧
    (∀ s : Option String,
        jsToLower (s.getD "") ∈ (["critical", "p0", "sev0", "high"] : List String) →
        mapAlertSeverity s = .P0) ∧
    (∀ s : Option String,
        jsToLower (s.getD "") ∉ (["critical", "p0", "sev0", "high"] : List String) →
        jsToLower (s.getD "") ∈ (["high", "p1", "sev1", "medium"] : List String) →
        mapAlertSeverity s = .P1) ∧
    (∀ s : Option String,
        jsToLower (s.getD "") ∉ (["critical", "p0", "sev0", "high"] : List String) →
        jsToLower (s.getD "") ∉ (["high", "p1", "sev1", "medium"] : List String) →
        jsToLower (s.getD "") ∈ (["medium", "p2", "sev2", "low"] : List String) →
        mapAlertSeverity s = .P2) ∧
    (∀ s : Option String,
        jsToLower (s.getD "") ∉ (["critical", "p0", "sev0", "high"] : List String) →
        jsToLower (s.getD "") ∉ (["high", "p1", "sev1", "medium"] : List String) →
        jsToLower (s.getD "") ∉ (["medium", "p2", "sev2", "low"] : List String) →
        mapAlertSeverity s = .P3) := by
  refine ⟨?_, ?_, ?_, ?_, ?_⟩
  · intro a b h
    simp only [mapAlertSeverity]
    rw [h]
  · intro s h
    simp only [mapAlertSeverity]
    rw [if_pos (List.elem_eq_true_of_mem h)]
  · intro s h0 h1
    simp only [mapAlertSeverity]
    rw [if_neg (by simpa using h0), if_pos (List.elem_eq_true_of_mem h1)]
  · intro s h0 h1 h2
    simp only [mapAlertSeverity]
    rw [if_neg (by simpa using h0), if_neg (by simpa using h1),
      if_pos (List.elem_eq_true_of_mem h2)]
  · intro s h0 h1 h2
    simp only [mapAlertSeverity]
    rw [if_neg (by simpa using h0), if_neg (by simpa using h1),
      if_neg (by simpa using h2)]

theorem mapAlertSeverity_rules_witness :
    mapAlertSeverity (some "HIGH") = mapAlertSeverity (some "high") ∧
    mapAlertSeverity (some "high") = .P0 ∧
    mapAlertSeverity (some "Medium") = .P1 ∧
    mapAlertSeverity (some "LOW") = .P2 ∧
    mapAlertSeverity none = .P3 ∧
    mapAlertSeverity (some "") = .P3 :=
  ⟨mapAlertSeverity_rules.1 (some "HIGH") (some "high") (by decide),
    mapAlertSeverity_rules.2.1 (some "high") (by decide),
    mapAlertSeverity_rules.2.2.1 (some "Medium") (by decide) (by decide),
    mapAlertSeverity_rules.2.2.2.1 (some "LOW") (by decide) (by decide) (by decide),
    mapAlertSeverity_rules.2.2.2.2 none (by decide) (by decide) (by decide),
    mapAlertSeverity_rules.2.2.2.2 (some "") (by decide) (by decide) (by decide)⟩

/-- A concrete malformed creation request at the runtime level: missing
title and an unrecognized severity token. -/
def malformedRequest : RawCreateRequest :=
  { title := none
    description := none
    severity := "bogus"
    assignee := none
    source := none
    tags := none
    metadata := none }

/-- C2 counterexample: applied to the empty store and a creation request
with a missing title and the unrecognized severity token `"bogus"`,
`createIncident` does not leave the store unchanged — it stores an
incident for the malformed request (there is no validation and no
error signal before the mutation). -/
theorem createIncident_accepts_malformed :
    (createIncidentRuntime [] malformedRequest "INC-1" "EVT-1" 0).2 ≠ [] ∧
    mapGet (createIncidentRuntime [] malformedRequest "INC-1" "EVT-1" 0).2
        "INC-1" =
      some (createIncidentRuntime [] malformedRequest "INC-1" "EVT-1" 0).1 := by
  constructor
  · simp [createIncidentRuntime, mapSet]
  · exact mapGet_mapSet_self [] "INC-1" _

/-- C2 amended: `createIncident` performs no input validation and never
signals an error — for every creation request, including one with a
missing title or an unrecognized severity token, it stores the new
incident under the generated id.  Malformed input is rejected only
upstream, in the Slack adapter: `handleCreateIncident` responds and
returns, never calling the store, whenever the final argument's
upper-cased severity token is not one of P0/P1/P2/P3 (which also covers
the fewer-than-two-arguments early return). -/
theorem createIncident_no_validation :
    (∀ (store : List (String × RawIncident)) (request : RawCreateRequest)
        (id evId : String) (now : Nat),
      mapGet (createIncidentRuntime store request id evId now).2 id =
        some (createIncidentRuntime store request id evId now).1) ∧
    (∀ args : List String,
      jsToUpper (args.getLast?.getD "") ∉ (["P0", "P1", "P2", "P3"] : List String) →
      handleCreateIncidentParse args = none) := by
  constructor
  · intro store request id evId now
    exact mapGet_mapSet_self store id _
  · intro args h
    simp only [List.mem_cons, List.not_mem_nil, or_false, not_or] at h
    obtain ⟨h0, h1, h2, h3⟩ := h
    unfold handleCreateIncidentParse
    split
    · rfl
    · simp [h0, h1, h2, h3]

theorem createIncident_no_validation_witness :
    mapGet (createIncidentRuntime [] malformedRequest "INC-2" "EVT-2" 7).2
        "INC-2" =
      some (createIncidentRuntime [] malformedRequest "INC-2" "EVT-2" 7).1 ∧
    handleCreateIncidentParse ["Database", "bogus"] = none :=
  ⟨createIncident_no_validation.1 [] malformedRequest "INC-2" "EVT-2" 7,
    createIncident_no_validation.2 ["Database", "bogus"] (by decide)⟩

/-! ### C8: the daily average-resolution-time report -/

/-- The claim's (and spec §4.2's) description of
`avgResolutionMinutesToday`, written from its words: the arithmetic mean
of `(resolvedAt − createdAt)` expressed in minutes, taken over exactly
the incidents whose `resolvedAt` is set and is at least the start of the
current day, and 0 when there is no such incident. -/
def specAvgResolutionMinutesToday (s : ManagerState) (today : Nat) : ℚ :=
  let resolvedToday := (getAllIncidents s).filter
    (fun i => i.resolvedAt.any (fun r => decide (today ≤ r)))
  if resolvedToday.length = 0 then 0
  else
    (resolvedToday.map (fun i =>
        (((i.resolvedAt.getD 0 : Nat) : ℚ) - (i.createdAt : ℚ)) / (1000 * 60))).sum
      / (resolvedToday.length : ℚ)

theorem resolutionSum_foldl_shift (l : List Incident) :
    ∀ acc : Int,
      l.foldl
          (fun sum incident =>
            match incident.resolvedAt with
            | some r => sum + ((r : Int) - (incident.createdAt : Int))
            | none => sum) acc =
        acc +
          l.foldl
            (fun sum incident =>
              match incident.resolvedAt with
              | some r => sum + ((r : Int) - (incident.createdAt : Int))
              | none => sum) 0 := by
  induction l with
  | nil => intro acc; simp
  | cons i l ih =>
    intro acc
    simp only [List.foldl_cons]
    rw [ih, ih (match i.resolvedAt with
      | some r => 0 + ((r : Int) - (i.createdAt : Int))
      | none => 0)]
    cases i.resolvedAt <;> simp [add_assoc]

theorem resolutionSum_toRat (l : List Incident)
    (h : ∀ i ∈ l, i.resolvedAt.isSome) :
    (resolutionSum l : ℚ) =
      (l.map (fun i => ((i.resolvedAt.getD 0 : Nat) : ℚ) - (i.createdAt : ℚ))).sum := by
  induction l with
  | nil => simp [resolutionSum]
  | cons i l ih =>
    have hi : i.resolvedAt.isSome := h i (List.mem_cons_self i l)
    rcases Option.isSome_iff_exists.mp hi with ⟨r, hr⟩
    unfold resolutionSum at ih ⊢
    simp only [List.foldl_cons]
    rw [resolutionSum_foldl_shift, hr]
    push_cast
    rw [ih (fun j hj => h j (List.mem_cons_of_mem i hj))]
    simp [hr]

theorem sum_map_div_const (l : List Incident) (f : Incident → ℚ) (c : ℚ) :
    (l.map (fun i => f i / c)).sum = (l.map f).sum / c := by
  induction l with
  | nil => simp
  | cons i l ih => simp [ih, add_div]

/-- C8 amended: for every store state and day-start `today`, the daily
report's `avgResolutionTimeToday` equals the arithmetic mean of
`(resolvedAt − createdAt)` in minutes over exactly the incidents whose
`resolvedAt` is set and ≥ `today`, rounded half-up to the nearest whole
minute (JS `Math.round`); it is 0 when no incident was resolved today. -/
theorem avgResolutionToday_rounded_mean (s : ManagerState) (today : Nat) :
    (generateDailyMetrics s today).avgResolutionTimeToday =
      jsRound (specAvgResolutionMinutesToday s today) := by
  unfold generateDailyMetrics specAvgResolutionMinutesToday
  simp only
  set l := (getAllIncidents s).filter
    (fun i => i.resolvedAt.any (fun r => decide (today ≤ r))) with hl
  have hmem : ∀ i ∈ l, i.resolvedAt.isSome := by
    intro i hi
    rcases List.mem_filter.mp hi with ⟨_, hp⟩
    cases hr : i.resolvedAt with
    | none => rw [hr] at hp; simp [Option.any] at hp
    | some r => simp
  by_cases hlen : l.length = 0
  · rw [if_neg (by omega), if_pos hlen]
  · have hpos : 0 < l.length := Nat.pos_of_ne_zero hlen
    rw [if_pos hpos, if_neg hlen]
    congr 1
    rw [resolutionSum_toRat l hmem, sum_map_div_const]
    rw [div_div, div_div, mul_comm]

/-- The store after creating one incident at time 0 and resolving it at
time 90000 ms (= 1.5 minutes later). -/
def resolvedTodayState : ManagerState :=
  runOps emptyState
    [.create ⟨"DB down", none, .P1, none, none, none, none⟩ "INC-1" "EVT-1" 0,
     .update "INC-1" .resolved none "EVT-2" 90000]

/-- The incident stored in `resolvedTodayState`, written out. -/
def resolvedIncidentValue : Incident :=
  { id := "INC-1"
    title := "DB down"
    description := none
    severity := .P1
    status := .resolved
    assignee := none
    channelId := none
    createdAt := 0
    updatedAt := 90000
    resolvedAt := some 90000
    closedAt := none
    source := .manual
    timeline :=
      [{ id := "EVT-1"
         incidentId := "INC-1"
         type := .created
         message := "Incident created: DB down"
         userId := none
         timestamp := 0
         metadata := some (.created .P1) },
       { id := "EVT-2"
         incidentId := "INC-1"
         type := .status_changed
         message := "Status changed from open to resolved"
         userId := none
         timestamp := 90000
         metadata := some (.statusChanged .«open» .resolved) }]
    tags := []
    metadata := none }

/-- C8 counterexample: with one incident resolved 1.5 minutes after
creation, the report's value is 2 (rounded), not the arithmetic mean 3/2
— so `avgResolutionTimeToday` does not equal the exact mean. -/
theorem avgResolutionToday_not_exact_mean :
    (generateDailyMetrics resolvedTodayState 0).avgResolutionTimeToday = 2 ∧
    specAvgResolutionMinutesToday resolvedTodayState 0 = 3 / 2 ∧
    ¬ (((generateDailyMetrics resolvedTodayState 0).avgResolutionTimeToday : ℚ) =
        specAvgResolutionMinutesToday resolvedTodayState 0) := by
  have hall : getAllIncidents resolvedTodayState = [resolvedIncidentValue] := by
    decide
  have hfilter : (getAllIncidents resolvedTodayState).filter
      (fun i => i.resolvedAt.any (fun r => decide ((0 : Nat) ≤ r))) =
      [resolvedIncidentValue] := by
    decide
  have hspec : specAvgResolutionMinutesToday resolvedTodayState 0 = 3 / 2 := by
    unfold specAvgResolutionMinutesToday
    simp only [hfilter]
    norm_num [resolvedIncidentValue]
  have hcode : (generateDailyMetrics resolvedTodayState 0).avgResolutionTimeToday = 2 := by
    unfold generateDailyMetrics
    simp only [hfilter]
    norm_num [resolvedIncidentValue, resolutionSum, jsRound]
  refine ⟨hcode, hspec, ?_⟩
  rw [hcode, hspec]
  norm_num

/-! ### Single-step lemmas for operation sequences -/

theorem getIncident_applyOp_ne (s : ManagerState) (op : Op) (id : String)
    (h : id ≠ op.target) : getIncident (applyOp s op) id = getIncident s id := by
  cases op with
  | create request cid evId now =>
    simp only [applyOp, createIncident, getIncident]
    exact mapGet_mapSet_ne _ _ _ _ (by simpa [Op.target] using h)
  | assign iid a evId now =>
    simp only [applyOp, assignIncident]
    cases hm : mapGet s.incidents iid with
    | none => rfl
    | some inc =>
      simp only [getIncident]
      exact mapGet_mapSet_ne _ _ _ _ (by simpa [Op.target] using h)
  | update iid st actor evId now =>
    simp only [applyOp, updateIncidentStatus]
    cases hm : mapGet s.incidents iid with
    | none => rfl
    | some inc =>
      simp only [getIncident]
      exact mapGet_mapSet_ne _ _ _ _ (by simpa [Op.target] using h)
  | comment iid msg u evId now =>
    simp only [applyOp, addIncidentComment]
    cases hm : mapGet s.incidents iid with
    | none => rfl
    | some inc =>
      simp only [getIncident]
      exact mapGet_mapSet_ne _ _ _ _ (by simpa [Op.target] using h)

theorem timelineLen_eq (s : ManagerState) (id : String) (inc : Incident)
    (h : getIncident s id = some inc) : timelineLen s id = inc.timeline.length := by
  unfold timelineLen
  rw [h]

/-- The running count of successful mutations tracks the stored timeline
length along any operation sequence. -/
theorem successfulMutations_eq_timelineLen (ops : List Op) :
    ∀ (s : ManagerState) (acc : Nat) (id : String),
      acc = timelineLen s id →
      successfulMutations s acc id ops = timelineLen (runOps s ops) id := by
  induction ops with
  | nil =>
    intro s acc id h
    simpa [successfulMutations, runOps] using h
  | cons op ops ih =>
    intro s acc id h
    show successfulMutations (applyOp s op)
        (if op.target = id ∧ opSucceeds s op then
          match op with
          | .create _ _ _ _ => 1
          | _ => acc + 1
        else acc) id ops = timelineLen (runOps (applyOp s op) ops) id
    apply ih
    by_cases ht : op.target = id
    · cases op with
      | create request cid evId now =>
        simp only [Op.target] at ht
        subst ht
        rw [if_pos ⟨by simp [Op.target], by simp [opSucceeds]⟩]
        have hget : getIncident (applyOp s (.create request cid evId now)) cid =
            some (createIncident s request cid evId now).1 := by
          simp only [applyOp, createIncident, getIncident]
          exact mapGet_mapSet_self _ _ _
        rw [timelineLen_eq _ _ _ hget]
        simp [createIncident]
      | assign iid a evId now =>
        simp only [Op.target] at ht
        subst ht
        cases hm : mapGet s.incidents iid with
        | none =>
          rw [if_neg (by simp [opSucceeds, hm])]
          have hid : applyOp s (.assign iid a evId now) = s := by
            simp [applyOp, assignIncident, hm]
          rw [hid]
          exact h
        | some inc =>
          rw [if_pos ⟨by simp [Op.target], by simp [opSucceeds, hm]⟩]
          show acc + 1 = timelineLen (applyOp s (.assign iid a evId now)) iid
          have hget : getIncident (applyOp s (.assign iid a evId now)) iid =
              some { inc with
                assignee := some a
                updatedAt := now
                timeline := inc.timeline ++
                  [{ id := evId
                     incidentId := iid
                     type := .assigned
                     message :=
                       match inc.assignee with
                       | some old =>
                           "Incident reassigned from " ++ old ++ " to " ++ a
                       | none => "Incident assigned to " ++ a
                     userId := none
                     timestamp := now
                     metadata := some (.assigned inc.assignee a) }] } := by
            simp only [applyOp, assignIncident, hm, getIncident]
            exact mapGet_mapSet_self _ _ _
          rw [timelineLen_eq _ _ _ hget]
          simp only [List.length_append, List.length_cons, List.length_nil]
          rw [h, timelineLen_eq s iid inc hm]
      | update iid st actor evId now =>
        simp only [Op.target] at ht
        subst ht
        cases hm : mapGet s.incidents iid with
        | none =>
          rw [if_neg (by simp [opSucceeds, hm])]
          have hid : applyOp s (.update iid st actor evId now) = s := by
            simp [applyOp, updateIncidentStatus, hm]
          rw [hid]
          exact h
        | some inc =>
          rw [if_pos ⟨by simp [Op.target], by simp [opSucceeds, hm]⟩]
          show acc + 1 = timelineLen (applyOp s (.update iid st actor evId now)) iid
          have hget : getIncident (applyOp s (.update iid st actor evId now)) iid =
              some { inc with
                status := st
                updatedAt := now
                resolvedAt := if st = .resolved then some now else inc.resolvedAt
                closedAt :=
                  if st = .resolved then inc.closedAt
                  else if st = .«closed» then some now else inc.closedAt
                timeline := inc.timeline ++
                  [{ id := evId
                     incidentId := iid
                     type := .status_changed
                     message := "Status changed from " ++ inc.status.str ++
                       " to " ++ st.str
                     userId := actor
                     timestamp := now
                     metadata := some (.statusChanged inc.status st) }] } := by
            simp only [applyOp, updateIncidentStatus, hm, getIncident]
            exact mapGet_mapSet_self _ _ _
          rw [timelineLen_eq _ _ _ hget]
          simp only [List.length_append, List.length_cons, List.length_nil]
          rw [h, timelineLen_eq s iid inc hm]
      | comment iid msg u evId now =>
        simp only [Op.target] at ht
        subst ht
        cases hm : mapGet s.incidents iid with
        | none =>
          rw [if_neg (by simp [opSucceeds, hm])]
          have hid : applyOp s (.comment iid msg u evId now) = s := by
            simp [applyOp, addIncidentComment, hm]
          rw [hid]
          exact h
        | some inc =>
          rw [if_pos ⟨by simp [Op.target], by simp [opSucceeds, hm]⟩]
          show acc + 1 = timelineLen (applyOp s (.comment iid msg u evId now)) iid
          have hget : getIncident (applyOp s (.comment iid msg u evId now)) iid =
              some { inc with
                updatedAt := now
                timeline := inc.timeline ++
                  [{ id := evId
                     incidentId := iid
                     type := .comment
                     message := msg
                     userId := some u
                     timestamp := now
                     metadata := none }] } := by
            simp only [applyOp, addIncidentComment, hm, getIncident]
            exact mapGet_mapSet_self _ _ _
          rw [timelineLen_eq _ _ _ hget]
          simp only [List.length_append, List.length_cons, List.length_nil]
          rw [h, timelineLen_eq s iid inc hm]
    · rw [if_neg (by simp [ht])]
      rw [h]
      unfold timelineLen
      rw [getIncident_applyOp_ne s op id (fun hc => ht hc.symm)]

/-! ### Timestamp monotonicity along operation sequences -/

theorem timesBounded_mono {s : ManagerState} {n m : Nat}
    (h : timesBounded s n) (hnm : n ≤ m) : timesBounded s m :=
  fun p hp ev hev => le_trans (h p hp ev hev) hnm

theorem chain_append_le (l : List Nat) (a : Nat)
    (hl : l.Chain' (· ≤ ·)) (ha : ∀ x ∈ l, x ≤ a) :
    (l ++ [a]).Chain' (· ≤ ·) := by
  rw [List.chain'_append]
  refine ⟨hl, List.chain'_singleton a, ?_⟩
  intro x hx y hy
  simp only [List.head?_cons, Option.mem_def, Option.some.injEq] at hy
  subst hy
  exact ha x (List.mem_of_mem_getLast? hx)

theorem mapSet_sorted_bounded (m : List (String × Incident)) (k : String)
    (inc' : Incident) (n : Nat)
    (h1 : timestampsSorted inc')
    (h2 : ∀ ev ∈ inc'.timeline, ev.timestamp ≤ n)
    (h3 : ∀ p ∈ m, timestampsSorted p.2)
    (h4 : ∀ p ∈ m, ∀ ev ∈ p.2.timeline, ev.timestamp ≤ n) :
    (∀ p ∈ mapSet m k inc', timestampsSorted p.2) ∧
    (∀ p ∈ mapSet m k inc', ∀ ev ∈ p.2.timeline, ev.timestamp ≤ n) := by
  constructor
  · intro p hp
    rcases mem_mapSet hp with hpk | hpm
    · subst hpk; exact h1
    · exact h3 p hpm
  · intro p hp ev hev
    rcases mem_mapSet hp with hpk | hpm
    · subst hpk; exact h2 ev hev
    · exact h4 p hpm ev hev

theorem appended_timeline_sorted (inc : Incident) (ev : IncidentEvent)
    (hsort : timestampsSorted inc)
    (hb : ∀ e ∈ inc.timeline, e.timestamp ≤ ev.timestamp) :
    ((inc.timeline ++ [ev]).map (·.timestamp)).Chain' (· ≤ ·) := by
  rw [List.map_append, List.map_cons, List.map_nil]
  refine chain_append_le _ _ hsort ?_
  intro x hx
  rcases List.mem_map.mp hx with ⟨e, he, rfl⟩
  exact hb e he

theorem applyOp_sorted_bounded (s : ManagerState) (op : Op)
    (hs : sortedState s) (hb : timesBounded s op.now) :
    sortedState (applyOp s op) ∧ timesBounded (applyOp s op) op.now := by
  cases op with
  | create request cid evId now =>
    refine mapSet_sorted_bounded s.incidents cid
      (createIncident s request cid evId now).1 now ?_ ?_ hs hb
    · simp [timestampsSorted, createIncident]
    · intro ev hev
      simp only [createIncident, List.nil_append, List.mem_singleton] at hev
      subst hev
      exact le_refl now
  | assign iid a evId now =>
    cases hm : mapGet s.incidents iid with
    | none =>
      have happ : applyOp s (.assign iid a evId now) = s := by
        simp [applyOp, assignIncident, hm]
      rw [happ]
      exact ⟨hs, hb⟩
    | some inc =>
      obtain ⟨p0, hp0, hk0, hv0⟩ := mapGet_mem hm
      have hsort0 : timestampsSorted inc := hv0 ▸ hs p0 hp0
      have hb0 : ∀ ev ∈ inc.timeline, ev.timestamp ≤ now := by
        intro ev hev
        exact hb p0 hp0 ev (by rw [hv0]; exact hev)
      have happ : applyOp s (.assign iid a evId now) =
          ⟨mapSet s.incidents iid
            { inc with
              assignee := some a
              updatedAt := now
              timeline := inc.timeline ++
                [{ id := evId
                   incidentId := iid
                   type := .assigned
                   message :=
                     match inc.assignee with
                     | some old =>
                         "Incident reassigned from " ++ old ++ " to " ++ a
                     | none => "Incident assigned to " ++ a
                   userId := none
                   timestamp := now
                   metadata := some (.assigned inc.assignee a) }] }⟩ := by
        simp [applyOp, assignIncident, hm]
      rw [happ]
      refine mapSet_sorted_bounded s.incidents iid _ now ?_ ?_ hs hb
      · exact appended_timeline_sorted inc _ hsort0 hb0
      · intro ev hev
        rcases List.mem_append.mp hev with h | h
        · exact hb0 ev h
        · simp only [List.mem_singleton] at h
          subst h
          exact le_refl now
  | update iid st actor evId now =>
    cases hm : mapGet s.incidents iid with
    | none =>
      have happ : applyOp s (.update iid st actor evId now) = s := by
        simp [applyOp, updateIncidentStatus, hm]
      rw [happ]
      exact ⟨hs, hb⟩
    | some inc =>
      obtain ⟨p0, hp0, hk0, hv0⟩ := mapGet_mem hm
      have hsort0 : timestampsSorted inc := hv0 ▸ hs p0 hp0
      have hb0 : ∀ ev ∈ inc.timeline, ev.timestamp ≤ now := by
        intro ev hev
        exact hb p0 hp0 ev (by rw [hv0]; exact hev)
      have happ : applyOp s (.update iid st actor evId now) =
          ⟨mapSet s.incidents iid
            { inc with
              status := st
              updatedAt := now
              resolvedAt := if st = .resolved then some now else inc.resolvedAt
              closedAt :=
                if st = .resolved then inc.closedAt
                else if st = .«closed» then some now else inc.closedAt
              timeline := inc.timeline ++
                [{ id := evId
                   incidentId := iid
                   type := .status_changed
                   message := "Status changed from " ++ inc.status.str ++
                     " to " ++ st.str
                   userId := actor
                   timestamp := now
                   metadata := some (.statusChanged inc.status st) }] }⟩ := by
        simp [applyOp, updateIncidentStatus, hm]
      rw [happ]
      refine mapSet_sorted_bounded s.incidents iid _ now ?_ ?_ hs hb
      · exact appended_timeline_sorted inc _ hsort0 hb0
      · intro ev hev
        rcases List.mem_append.mp hev with h | h
        · exact hb0 ev h
        · simp only [List.mem_singleton] at h
          subst h
          exact le_refl now
  | comment iid msg u evId now =>
    cases hm : mapGet s.incidents iid with
    | none =>
      have happ : applyOp s (.comment iid msg u evId now) = s := by
        simp [applyOp, addIncidentComment, hm]
      rw [happ]
      exact ⟨hs, hb⟩
    | some inc =>
      obtain ⟨p0, hp0, hk0, hv0⟩ := mapGet_mem hm
      have hsort0 : timestampsSorted inc := hv0 ▸ hs p0 hp0
      have hb0 : ∀ ev ∈ inc.timeline, ev.timestamp ≤ now := by
        intro ev hev
        exact hb p0 hp0 ev (by rw [hv0]; exact hev)
      have happ : applyOp s (.comment iid msg u evId now) =
          ⟨mapSet s.incidents iid
            { inc with
              updatedAt := now
              timeline := inc.timeline ++
                [{ id := evId
                   incidentId := iid
                   type := .comment
                   message := msg
                   userId := some u
                   timestamp := now
                   metadata := none }] }⟩ := by
        simp [applyOp, addIncidentComment, hm]
      rw [happ]
      refine mapSet_sorted_bounded s.incidents iid _ now ?_ ?_ hs hb
      · exact appended_timeline_sorted inc _ hsort0 hb0
      · intro ev hev
        rcases List.mem_append.mp hev with h | h
        · exact hb0 ev h
        · simp only [List.mem_singleton] at h
          subst h
          exact le_refl now

theorem runOps_sorted (ops : List Op) :
    ∀ (s : ManagerState) (n : Nat),
      sortedState s → timesBounded s n → nowsAdmissible n ops →
      sortedState (runOps s ops) := by
  induction ops with
  | nil =>
    intro s n hs _ _
    simpa [runOps] using hs
  | cons op ops ih =>
    rintro s n hs hb ⟨hle, hadm⟩
    have hb' : timesBounded s op.now := timesBounded_mono hb hle
    obtain ⟨hs1, hb1⟩ := applyOp_sorted_bounded s op hs hb'
    exact ih (applyOp s op) op.now hs1 hb1 hadm

/-- C4: starting from an empty store, for every operation sequence whose
clock readings are non-decreasing and for every incident id, the stored
timeline length equals the number of successful mutation calls applied to
that incident (creation counting as one), and every incident's timeline
timestamps are non-decreasing in timeline order. -/
theorem timeline_length_and_monotone (ops : List Op) (id : String)
    (h : nowsAdmissible 0 ops) :
    successfulMutations emptyState 0 id ops =
      timelineLen (runOps emptyState ops) id ∧
    ∀ p ∈ (runOps emptyState ops).incidents, timestampsSorted p.2 := by
  constructor
  · exact successfulMutations_eq_timelineLen ops emptyState 0 id rfl
  · exact runOps_sorted ops emptyState 0
      (by intro p hp; simp [emptyState] at hp)
      (by intro p hp; simp [emptyState] at hp)
      h

/-- A small concrete run: one incident created, assigned, resolved and
commented on, with one failing operation on a missing id in between. -/
def witnessOps : List Op :=
  [.create ⟨"DB down", none, .P1, none, none, none, none⟩ "INC-1" "EVT-1" 0,
   .assign "INC-1" "U1" "EVT-2" 5,
   .assign "MISSING" "U2" "EVT-3" 7,
   .update "INC-1" .resolved none "EVT-4" 9,
   .comment "INC-1" "looks fixed" "U1" "EVT-5" 12]

theorem timeline_length_and_monotone_witness :
    nowsAdmissible 0 witnessOps ∧
    (successfulMutations emptyState 0 "INC-1" witnessOps =
        timelineLen (runOps emptyState witnessOps) "INC-1" ∧
      ∀ p ∈ (runOps emptyState witnessOps).incidents, timestampsSorted p.2) :=
  ⟨by norm_num [nowsAdmissible, witnessOps, Op.now],
    timeline_length_and_monotone witnessOps "INC-1"
      (by norm_num [nowsAdmissible, witnessOps, Op.now])⟩

/-! ### The `resolvedAt`/`closedAt` discipline (C1) -/

theorem timestampsFaithful_applyOp (s : ManagerState) (op : Op)
    (h : timestampsFaithful s) : timestampsFaithful (applyOp s op) := by
  cases op with
  | create request cid evId now =>
    intro p hp
    rcases mem_mapSet hp with hpk | hpm
    · subst hpk
      constructor <;> rfl
    · exact h p hpm
  | assign iid a evId now =>
    cases hm : mapGet s.incidents iid with
    | none =>
      have happ : applyOp s (.assign iid a evId now) = s := by
        simp [applyOp, assignIncident, hm]
      rw [happ]
      exact h
    | some inc =>
      obtain ⟨p0, hp0, hk0, hv0⟩ := mapGet_mem hm
      have h0 := h p0 hp0
      rw [hv0] at h0
      have happ : applyOp s (.assign iid a evId now) =
          ⟨mapSet s.incidents iid
            { inc with
              assignee := some a
              updatedAt := now
              timeline := inc.timeline ++
                [{ id := evId
                   incidentId := iid
                   type := .assigned
                   message :=
                     match inc.assignee with
                     | some old =>
                         "Incident reassigned from " ++ old ++ " to " ++ a
                     | none => "Incident assigned to " ++ a
                   userId := none
                   timestamp := now
                   metadata := some (.assigned inc.assignee a) }] }⟩ := by
        simp [applyOp, assignIncident, hm]
      rw [happ]
      intro p hp
      rcases mem_mapSet hp with hpk | hpm
      · subst hpk
        refine ⟨?_, ?_⟩
        · show inc.resolvedAt.isSome = (inc.timeline ++ [_]).any evSetsResolved
          rw [List.any_append]
          simp [evSetsResolved, h0.1, everResolved]
        · show inc.closedAt.isSome = (inc.timeline ++ [_]).any evSetsClosed
          rw [List.any_append]
          simp [evSetsClosed, h0.2, everClosed]
      · exact h p hpm
  | update iid st actor evId now =>
    cases hm : mapGet s.incidents iid with
    | none =>
      have happ : applyOp s (.update iid st actor evId now) = s := by
        simp [applyOp, updateIncidentStatus, hm]
      rw [happ]
      exact h
    | some inc =>
      obtain ⟨p0, hp0, hk0, hv0⟩ := mapGet_mem hm
      have h0 := h p0 hp0
      rw [hv0] at h0
      have happ : applyOp s (.update iid st actor evId now) =
          ⟨mapSet s.incidents iid
            { inc with
              status := st
              updatedAt := now
              resolvedAt := if st = .resolved then some now else inc.resolvedAt
              closedAt :=
                if st = .resolved then inc.closedAt
                else if st = .«closed» then some now else inc.closedAt
              timeline := inc.timeline ++
                [{ id := evId
                   incidentId := iid
                   type := .status_changed
                   message := "Status changed from " ++ inc.status.str ++
                     " to " ++ st.str
                   userId := actor
                   timestamp := now
                   metadata := some (.statusChanged inc.status st) }] }⟩ := by
        simp [applyOp, updateIncidentStatus, hm]
      rw [happ]
      intro p hp
      rcases mem_mapSet hp with hpk | hpm
      · subst hpk
        refine ⟨?_, ?_⟩
        · show (if st = .resolved then some now else inc.resolvedAt).isSome =
            (inc.timeline ++ [_]).any evSetsResolved
          rw [List.any_append]
          cases st <;>
            simp [evSetsResolved, h0.1, everResolved]
        · show (if st = .resolved then inc.closedAt
              else if st = .«closed» then some now else inc.closedAt).isSome =
            (inc.timeline ++ [_]).any evSetsClosed
          rw [List.any_append]
          cases st <;>
            simp [evSetsClosed, h0.2, everClosed]
      · exact h p hpm
  | comment iid msg u evId now =>
    cases hm : mapGet s.incidents iid with
    | none =>
      have happ : applyOp s (.comment iid msg u evId now) = s := by
        simp [applyOp, addIncidentComment, hm]
      rw [happ]
      exact h
    | some inc =>
      obtain ⟨p0, hp0, hk0, hv0⟩ := mapGet_mem hm
      have h0 := h p0 hp0
      rw [hv0] at h0
      have happ : applyOp s (.comment iid msg u evId now) =
          ⟨mapSet s.incidents iid
            { inc with
              updatedAt := now
              timeline := inc.timeline ++
                [{ id := evId
                   incidentId := iid
                   type := .comment
                   message := msg
                   userId := some u
                   timestamp := now
                   metadata := none }] }⟩ := by
        simp [applyOp, addIncidentComment, hm]
      rw [happ]
      intro p hp
      rcases mem_mapSet hp with hpk | hpm
      · subst hpk
        refine ⟨?_, ?_⟩
        · show inc.resolvedAt.isSome = (inc.timeline ++ [_]).any evSetsResolved
          rw [List.any_append]
          simp [evSetsResolved, h0.1, everResolved]
        · show inc.closedAt.isSome = (inc.timeline ++ [_]).any evSetsClosed
          rw [List.any_append]
          simp [evSetsClosed, h0.2, everClosed]
      · exact h p hpm

theorem timestampsFaithful_runOps (ops : List Op) :
    timestampsFaithful (runOps emptyState ops) := by
  have haux : ∀ (l : List Op) (s : ManagerState),
      timestampsFaithful s → timestampsFaithful (runOps s l) := by
    intro l
    induction l with
    | nil => intro s hs; simpa [runOps] using hs
    | cons op l ih =>
      intro s hs
      exact ih (applyOp s op) (timestampsFaithful_applyOp s op hs)
  exact haux ops emptyState (by intro p hp; simp [emptyState] at hp)

/-- The incident stored under an id (if any) has `resolvedAt` set. -/
def resolvedSet (o : Option Incident) : Bool :=
  o.elim false (fun inc => inc.resolvedAt.isSome)

/-- The incident stored under an id (if any) has `closedAt` set. -/
def closedSet (o : Option Incident) : Bool :=
  o.elim false (fun inc => inc.closedAt.isSome)

/-- C1 corrected: `resolvedAt` (resp. `closedAt`) is set if and only if
the incident has ever had its status set to resolved (resp. closed), and
no operation ever unsets it; but it is not frozen at the first
transition: every successful `updateStatus(id, 'resolved')` sets
`resolvedAt` to the time of that call, so a second transition overwrites
the first timestamp.  Conjuncts: (1) a successful transition to
resolved/closed always writes the current time into
`resolvedAt`/`closedAt`; (2) from the empty store, after any operation
sequence each stored incident has `resolvedAt`/`closedAt` set exactly
when its timeline records a status change to resolved/closed; (3)
`assignIncident` preserves both timestamps of every stored incident
exactly; (4) so does `addIncidentComment`; (5) `updateIncidentStatus`
never unsets a set timestamp, for any stored incident. -/
theorem resolvedAt_closedAt_discipline :
    (∀ (s : ManagerState) (id : String) (actor : Option String)
        (evId : String) (now : Nat) (inc : Incident),
      getIncident s id = some inc →
      (getIncident (updateIncidentStatus s id .resolved actor evId now).2 id).map
          (·.resolvedAt) = some (some now) ∧
      (getIncident (updateIncidentStatus s id .«closed» actor evId now).2 id).map
          (·.closedAt) = some (some now)) ∧
    (∀ ops : List Op, timestampsFaithful (runOps emptyState ops)) ∧
    (∀ (s : ManagerState) (iid a evId : String) (now : Nat) (id' : String),
      (getIncident (assignIncident s iid a evId now).2 id').map (·.resolvedAt) =
        (getIncident s id').map (·.resolvedAt) ∧
      (getIncident (assignIncident s iid a evId now).2 id').map (·.closedAt) =
        (getIncident s id').map (·.closedAt)) ∧
    (∀ (s : ManagerState) (iid msg u evId : String) (now : Nat) (id' : String),
      (getIncident (addIncidentComment s iid msg u evId now).2 id').map
          (·.resolvedAt) = (getIncident s id').map (·.resolvedAt) ∧
      (getIncident (addIncidentComment s iid msg u evId now).2 id').map
          (·.closedAt) = (getIncident s id').map (·.closedAt)) ∧
    (∀ (s : ManagerState) (iid : String) (st : Status) (actor : Option String)
        (evId : String) (now : Nat) (id' : String),
      (resolvedSet (getIncident s id') = true →
        resolvedSet
          (getIncident (updateIncidentStatus s iid st actor evId now).2 id') =
          true) ∧
      (closedSet (getIncident s id') = true →
        closedSet
          (getIncident (updateIncidentStatus s iid st actor evId now).2 id') =
          true)) := by
  refine ⟨?_, timestampsFaithful_runOps, ?_, ?_, ?_⟩
  · intro s id actor evId now inc h
    have h' : mapGet s.incidents id = some inc := h
    constructor
    · simp only [updateIncidentStatus, h', getIncident]
      rw [mapGet_mapSet_self]
      rfl
    · simp only [updateIncidentStatus, h', getIncident]
      rw [mapGet_mapSet_self]
      rfl
  · intro s iid a evId now id'
    cases hm : mapGet s.incidents iid with
    | none => simp [assignIncident, hm]
    | some inc =>
      by_cases hid : id' = iid
      · subst hid
        constructor <;>
          · simp only [assignIncident, hm, getIncident]
            rw [mapGet_mapSet_self]
            rfl
      · constructor <;>
          · simp only [assignIncident, hm, getIncident]
            rw [mapGet_mapSet_ne _ _ _ _ hid]
  · intro s iid msg u evId now id'
    cases hm : mapGet s.incidents iid with
    | none => simp [addIncidentComment, hm]
    | some inc =>
      by_cases hid : id' = iid
      · subst hid
        constructor <;>
          · simp only [addIncidentComment, hm, getIncident]
            rw [mapGet_mapSet_self]
            rfl
      · constructor <;>
          · simp only [addIncidentComment, hm, getIncident]
            rw [mapGet_mapSet_ne _ _ _ _ hid]
  · intro s iid st actor evId now id'
    cases hm : mapGet s.incidents iid with
    | none =>
      constructor <;> (intro hr; simpa [updateIncidentStatus, hm] using hr)
    | some inc =>
      by_cases hid : id' = iid
      · subst hid
        have hg : getIncident s id' = some inc := hm
        constructor
        · intro hr
          rw [hg] at hr
          simp only [resolvedSet, Option.elim] at hr
          simp only [updateIncidentStatus, hm, getIncident]
          rw [mapGet_mapSet_self]
          simp only [resolvedSet, Option.elim]
          by_cases hst : st = .resolved <;> simp [hst, hr]
        · intro hr
          rw [hg] at hr
          simp only [closedSet, Option.elim] at hr
          simp only [updateIncidentStatus, hm, getIncident]
          rw [mapGet_mapSet_self]
          simp only [closedSet, Option.elim]
          by_cases hst : st = .resolved
          · simp [hst, hr]
          · by_cases hst2 : st = .«closed» <;> simp [hst, hst2, hr]
      · constructor <;>
          · intro hr
            simp only [updateIncidentStatus, hm, getIncident]
            rw [mapGet_mapSet_ne _ _ _ _ hid]
            exact hr

def witnessReq : CreateIncidentRequest :=
  ⟨"DB down", none, .P1, none, none, none, none⟩

def witnessState : ManagerState :=
  (createIncident emptyState witnessReq "INC-1" "EVT-1" 0).2

/-- Store after creating an incident at time 0 and resolving it at time 1. -/
def doubleResolveOnce : ManagerState :=
  runOps emptyState
    [.create witnessReq "INC-1" "EVT-1" 0,
     .update "INC-1" .resolved none "EVT-2" 1]

/-- Store after additionally resolving the same incident again at time 2. -/
def doubleResolveTwice : ManagerState :=
  runOps emptyState
    [.create witnessReq "INC-1" "EVT-1" 0,
     .update "INC-1" .resolved none "EVT-2" 1,
     .update "INC-1" .resolved none "EVT-3" 2]

/-- Store after creating an incident at time 0 and closing it at time 1. -/
def closedOnceState : ManagerState :=
  runOps emptyState
    [.create witnessReq "INC-1" "EVT-1" 0,
     .update "INC-1" .«closed» none "EVT-2" 1]

/-- C1 counterexample: calling `updateStatus(id, 'resolved')` twice in a
row (at times 1 and 2) leaves `resolvedAt = 2`, not the first
transition's time 1 — the second call did not leave `resolvedAt`
unchanged; it overwrote it. -/
theorem resolvedAt_overwritten_by_second_resolve :
    (getIncident doubleResolveOnce "INC-1").map (·.resolvedAt) = some (some 1) ∧
    (getIncident doubleResolveTwice "INC-1").map (·.resolvedAt) = some (some 2) ∧
    (getIncident doubleResolveTwice "INC-1").map (·.resolvedAt) ≠
      (getIncident doubleResolveOnce "INC-1").map (·.resolvedAt) := by
  refine ⟨by decide, by decide, by decide⟩

theorem resolvedAt_closedAt_discipline_witness :
    ((getIncident
        (updateIncidentStatus witnessState "INC-1" .resolved none "EVT-2" 4).2
        "INC-1").map (·.resolvedAt) = some (some 4) ∧
      (getIncident
        (updateIncidentStatus witnessState "INC-1" .«closed» none "EVT-2" 4).2
        "INC-1").map (·.closedAt) = some (some 4)) ∧
    resolvedSet
      (getIncident
        (updateIncidentStatus doubleResolveOnce "INC-1" .investigating none
          "EVT-9" 3).2 "INC-1") = true ∧
    closedSet
      (getIncident
        (updateIncidentStatus closedOnceState "INC-1" .«open» none
          "EVT-9" 3).2 "INC-1") = true :=
  ⟨resolvedAt_closedAt_discipline.1 witnessState "INC-1" none "EVT-2" 4
      (createIncident emptyState witnessReq "INC-1" "EVT-1" 0).1 (by decide),
    (resolvedAt_closedAt_discipline.2.2.2.2 doubleResolveOnce "INC-1"
        .investigating none "EVT-9" 3 "INC-1").1 (by decide),
    (resolvedAt_closedAt_discipline.2.2.2.2 closedOnceState "INC-1"
        .«open» none "EVT-9" 3 "INC-1").2 (by decide)⟩

/-! ### Frame conditions of the three mutation operations (C10) -/

/-- The incident fields that none of the three mutation operations may
change. -/
def frameUnchanged (inc inc' : Incident) : Prop :=
  inc'.id = inc.id ∧ inc'.title = inc.title ∧
  inc'.description = inc.description ∧ inc'.severity = inc.severity ∧
  inc'.source = inc.source ∧ inc'.tags = inc.tags ∧
  inc'.metadata = inc.metadata ∧ inc'.createdAt = inc.createdAt ∧
  inc'.channelId = inc.channelId

/-- C10: every successful `assignIncident`, `updateIncidentStatus` and
`addIncidentComment` call leaves `id`, `title`, `description`,
`severity`, `source`, `tags`, `metadata`, `createdAt` and `channelId`
unchanged; each modifies only its target fields — the assignee, the
status (with `resolvedAt`/`closedAt`), and nothing beyond the comment
event, respectively — plus `updatedAt` (which `addIncidentComment` also
bumps) and a single appended timeline event; and every other stored
incident is untouched. -/
theorem mutation_frame_conditions (s : ManagerState)
    (id a msg u evId : String) (st : Status) (actor : Option String)
    (now : Nat) (inc : Incident) (h : getIncident s id = some inc) :
    (∃ inc' ev,
      getIncident (assignIncident s id a evId now).2 id = some inc' ∧
      frameUnchanged inc inc' ∧ inc'.assignee = some a ∧
      inc'.status = inc.status ∧ inc'.resolvedAt = inc.resolvedAt ∧
      inc'.closedAt = inc.closedAt ∧ inc'.updatedAt = now ∧
      inc'.timeline = inc.timeline ++ [ev]) ∧
    (∃ inc' ev,
      getIncident (updateIncidentStatus s id st actor evId now).2 id =
        some inc' ∧
      frameUnchanged inc inc' ∧ inc'.assignee = inc.assignee ∧
      inc'.status = st ∧ inc'.updatedAt = now ∧
      inc'.timeline = inc.timeline ++ [ev]) ∧
    (∃ inc' ev,
      getIncident (addIncidentComment s id msg u evId now).2 id = some inc' ∧
      frameUnchanged inc inc' ∧ inc'.assignee = inc.assignee ∧
      inc'.status = inc.status ∧ inc'.resolvedAt = inc.resolvedAt ∧
      inc'.closedAt = inc.closedAt ∧ inc'.updatedAt = now ∧
      inc'.timeline = inc.timeline ++ [ev]) ∧
    (∀ j, j ≠ id →
      getIncident (assignIncident s id a evId now).2 j = getIncident s j ∧
      getIncident (updateIncidentStatus s id st actor evId now).2 j =
        getIncident s j ∧
      getIncident (addIncidentComment s id msg u evId now).2 j =
        getIncident s j) := by
  have h' : mapGet s.incidents id = some inc := h
  refine ⟨?_, ?_, ?_, ?_⟩
  · have hget : getIncident (assignIncident s id a evId now).2 id =
        some { inc with
          assignee := some a
          updatedAt := now
          timeline := inc.timeline ++
            [{ id := evId
               incidentId := id
               type := .assigned
               message :=
                 match inc.assignee with
                 | some old =>
                     "Incident reassigned from " ++ old ++ " to " ++ a
                 | none => "Incident assigned to " ++ a
               userId := none
               timestamp := now
               metadata := some (.assigned inc.assignee a) }] } := by
      simp only [assignIncident, h', getIncident]
      exact mapGet_mapSet_self _ _ _
    exact ⟨_, _, hget, ⟨rfl, rfl, rfl, rfl, rfl, rfl, rfl, rfl, rfl⟩,
      rfl, rfl, rfl, rfl, rfl, rfl⟩
  · have hget : getIncident (updateIncidentStatus s id st actor evId now).2 id =
        some { inc with
          status := st
          updatedAt := now
          resolvedAt := if st = .resolved then some now else inc.resolvedAt
          closedAt :=
            if st = .resolved then inc.closedAt
            else if st = .«closed» then some now else inc.closedAt
          timeline := inc.timeline ++
            [{ id := evId
               incidentId := id
               type := .status_changed
               message := "Status changed from " ++ inc.status.str ++
                 " to " ++ st.str
               userId := actor
               timestamp := now
               metadata := some (.statusChanged inc.status st) }] } := by
      simp only [updateIncidentStatus, h', getIncident]
      exact mapGet_mapSet_self _ _ _
    exact ⟨_, _, hget, ⟨rfl, rfl, rfl, rfl, rfl, rfl, rfl, rfl, rfl⟩,
      rfl, rfl, rfl, rfl⟩
  · have hget : getIncident (addIncidentComment s id msg u evId now).2 id =
        some { inc with
          updatedAt := now
          timeline := inc.timeline ++
            [{ id := evId
               incidentId := id
               type := .comment
               message := msg
               userId := some u
               timestamp := now
               metadata := none }] } := by
      simp only [addIncidentComment, h', getIncident]
      exact mapGet_mapSet_self _ _ _
    exact ⟨_, _, hget, ⟨rfl, rfl, rfl, rfl, rfl, rfl, rfl, rfl, rfl⟩,
      rfl, rfl, rfl, rfl, rfl, rfl⟩
  · intro j hj
    refine ⟨?_, ?_, ?_⟩
    · simp only [assignIncident, h', getIncident]
      exact mapGet_mapSet_ne _ _ _ _ hj
    · simp only [updateIncidentStatus, h', getIncident]
      exact mapGet_mapSet_ne _ _ _ _ hj
    · simp only [addIncidentComment, h', getIncident]
      exact mapGet_mapSet_ne _ _ _ _ hj

theorem mutation_frame_conditions_witness :
    (∃ inc' ev,
      getIncident (assignIncident witnessState "INC-1" "U1" "EVT-2" 4).2
          "INC-1" = some inc' ∧
      frameUnchanged (createIncident emptyState witnessReq "INC-1" "EVT-1" 0).1
        inc' ∧
      inc'.assignee = some "U1" ∧
      inc'.status = (createIncident emptyState witnessReq "INC-1" "EVT-1" 0).1.status ∧
      inc'.resolvedAt =
        (createIncident emptyState witnessReq "INC-1" "EVT-1" 0).1.resolvedAt ∧
      inc'.closedAt =
        (createIncident emptyState witnessReq "INC-1" "EVT-1" 0).1.closedAt ∧
      inc'.updatedAt = 4 ∧
      inc'.timeline =
        (createIncident emptyState witnessReq "INC-1" "EVT-1" 0).1.timeline ++ [ev]) ∧
    (∃ inc' ev,
      getIncident
          (updateIncidentStatus witnessState "INC-1" .resolved none "EVT-2" 4).2
          "INC-1" = some inc' ∧
      frameUnchanged (createIncident emptyState witnessReq "INC-1" "EVT-1" 0).1
        inc' ∧
      inc'.assignee =
        (createIncident emptyState witnessReq "INC-1" "EVT-1" 0).1.assignee ∧
      inc'.status = .resolved ∧ inc'.updatedAt = 4 ∧
      inc'.timeline =
        (createIncident emptyState witnessReq "INC-1" "EVT-1" 0).1.timeline ++ [ev]) ∧
    (∃ inc' ev,
      getIncident
          (addIncidentComment witnessState "INC-1" "hello" "U1" "EVT-2" 4).2
          "INC-1" = some inc' ∧
      frameUnchanged (createIncident emptyState witnessReq "INC-1" "EVT-1" 0).1
        inc' ∧
      inc'.assignee =
        (createIncident emptyState witnessReq "INC-1" "EVT-1" 0).1.assignee ∧
      inc'.status =
        (createIncident emptyState witnessReq "INC-1" "EVT-1" 0).1.status ∧
      inc'.resolvedAt =
        (createIncident emptyState witnessReq "INC-1" "EVT-1" 0).1.resolvedAt ∧
      inc'.closedAt =
        (createIncident emptyState witnessReq "INC-1" "EVT-1" 0).1.closedAt ∧
      inc'.updatedAt = 4 ∧
      inc'.timeline =
        (createIncident emptyState witnessReq "INC-1" "EVT-1" 0).1.timeline ++ [ev]) ∧
    (∀ j, j ≠ "INC-1" →
      getIncident (assignIncident witnessState "INC-1" "U1" "EVT-2" 4).2 j =
        getIncident witnessState j ∧
      getIncident
          (updateIncidentStatus witnessState "INC-1" .resolved none "EVT-2" 4).2
          j = getIncident witnessState j ∧
      getIncident (addIncidentComment witnessState "INC-1" "hello" "U1" "EVT-2" 4).2
          j = getIncident witnessState j) :=
  mutation_frame_conditions witnessState "INC-1" "U1" "hello" "U1" "EVT-2"
    .resolved none 4 (createIncident emptyState witnessReq "INC-1" "EVT-1" 0).1
    (by decide)

end IncidentBot
